import Mathlib

/-!
Verification of the analytics-dashboard tunneling endpoint.

Shallow embedding of the repository's protocol detector (`DataProcessor`,
src/unnamed/part_001, the two-format detector used by the WebSocket manager)
and of the per-connection tunnel state machine (`StreamHandler`,
src/src/websocket-manager.js).

Byte buffers (`Buffer` in the source) are modelled as `List Nat`; each entry
stands for one byte.  `buf.getD i 0` models `data.readUInt8(i)` (the source
always guards reads with an explicit length check first, so the default is
never what the source observes on a real buffer).  Configuration values read
at startup (the expected 16-byte identifier obtained from
`parseIdentifier(config.dataSource.primary.apiKey)`, the SHA-224 hex digest of
`config.dataSource.streaming.token` computed by the external `crypto` library,
and `config.dataSource.bufferSize`) are modelled as a read-only `Config`
record: the digest string is kept abstract as its list of character codes,
since SHA-224 itself lives in the external crypto collaborator.
-/

/-- Read-only process configuration (src/config.js via `this.config`).
`expectedId` models `parseIdentifier(config.dataSource.primary.apiKey)`
(16 raw bytes), `expectedHash` models the character codes of
`crypto.createHash('sha224').update(config.dataSource.streaming.token).digest('hex')`,
and `bufferSize` models `config.dataSource.bufferSize` (8192 in src/config.js). -/
structure Config where
  expectedId : List Nat
  expectedHash : List Nat
  bufferSize : Nat

namespace DataProcessor

/-- The two wire formats recognized by `parseDataPacket`
(`'primary'` and `'streaming'` in the source). -/
inductive FormatTag
  | primary
  | streaming
deriving DecidableEq

/-- Address kind extracted by `parseAddress`
(`'ipv4'` / `'domain'` / `'ipv6'` strings in the source). -/
inductive AddrType
  | ipv4
  | domain
  | ipv6
deriving DecidableEq

/-- Address value before string rendering: `parseAddress` renders IPv4 as
dotted decimal, a domain by UTF-8-decoding its bytes, and IPv6 as
colon-joined lowercase hex groups; we keep the underlying bytes/groups and
render separately. -/
inductive AddrVal
  | ipv4 (bytes : List Nat)
  | domain (bytes : List Nat)
  | ipv6 (groups : List Nat)
deriving DecidableEq

/-- Result of `parseAddress`: kind, value and the offset just past the
address field. -/
structure AddrInfo where
  type : AddrType
  address : AddrVal
  offset : Nat
deriving DecidableEq

/-- `data.slice(a, b)` on a Node buffer. -/
def listSlice (l : List Nat) (a b : Nat) : List Nat :=
  (l.take b).drop a

/-- `data.readUInt16BE(off)`. -/
def readUInt16BE (l : List Nat) (off : Nat) : Nat :=
  256 * l.getD off 0 + l.getD (off + 1) 0

/-- `data.slice(o, o+4).join('.')` for an IPv4 address. -/
def renderIPv4 (bs : List Nat) : String :=
  String.intercalate "." (bs.map (fun b => toString b))

/-- `n.toString(16)`: lowercase hexadecimal rendering of one 16-bit group. -/
def hexGroup (n : Nat) : String :=
  String.mk (Nat.toDigits 16 n)

/-- IPv6 rendering: 8 big-endian groups in lowercase hex joined by colons. -/
def renderIPv6 (gs : List Nat) : String :=
  String.intercalate ":" (gs.map hexGroup)

/-- Character codes of an ASCII string (for ASCII text these coincide with
its UTF-8 bytes, which is how the source compares domain names and digests). -/
def strBytes (s : String) : List Nat :=
  s.data.map (fun c => c.toNat)

/-- `DataProcessor.parseAddress(data, offset)` (src/unnamed/part_001).
Reads the address-type byte, then the address value; returns the kind, the
value and the offset just past it.  The port is *not* parsed here (the
source comments: "port is removed from here"). -/
def parseAddress (data : List Nat) (offset : Nat) : Except String AddrInfo :=
  if offset ≥ data.length then .error "Missing address type"
  else if data.getD offset 0 = 1 then
    -- case 1: IPv4, 4 raw bytes
    if offset + 1 + 4 > data.length then .error "Incomplete IPv4 address"
    else .ok ⟨.ipv4, .ipv4 (listSlice data (offset + 1) (offset + 5)), offset + 5⟩
  else if data.getD offset 0 = 3 then
    -- case 3: Domain, 1-byte length then that many bytes
    if offset + 1 ≥ data.length then .error "Missing domain length"
    else if offset + 2 + data.getD (offset + 1) 0 > data.length then
      .error "Incomplete domain data"
    else .ok ⟨.domain,
              .domain (listSlice data (offset + 2) (offset + 2 + data.getD (offset + 1) 0)),
              offset + 2 + data.getD (offset + 1) 0⟩
  else if data.getD offset 0 = 4 then
    -- case 4: IPv6, 16 raw bytes as 8 big-endian 16-bit groups
    if offset + 1 + 16 > data.length then .error "Incomplete IPv6 address"
    else .ok ⟨.ipv6,
              .ipv6 ((List.range 8).map (fun i => readUInt16BE data (offset + 1 + 2 * i))),
              offset + 17⟩
  else .error ("Unsupported address type: " ++ toString (data.getD offset 0))

/-- Successful parse result: the fields of the object returned by
`processPrimaryData` / `processStreamingData` that the rest of the system
reads (`format`, `command`, `target.type`, `target.address`, `target.port`,
`payload`, `metadata.headerLength`).  `port` is an `Option` because the
streaming branch reads `addressInfo.port`, a field `parseAddress` no longer
returns (`undefined` in the source). -/
structure MatchResult where
  format : FormatTag
  command : Nat
  addrType : AddrType
  address : AddrVal
  port : Option Nat
  payload : List Nat
  headerLength : Nat
deriving DecidableEq

/-- `DataProcessor.processPrimaryData(data)` (src/unnamed/part_001).
Layout: version(1) = 0, identifier(16) byte-equal to the configured one,
metadata length(1), metadata(N) skipped, command(1), port(2, big-endian),
then the address via `parseAddress`; the rest is payload. -/
def processPrimaryData (cfg : Config) (data : List Nat) : Except String MatchResult :=
  if data.length < 16 then .error "Insufficient primary data length"
  -- version = data.readUInt8(0), must be 0
  else if data.getD 0 0 ≠ 0 then .error "Unsupported primary data version"
  -- identifier = data.slice(1, 17), must equal the configured identifier
  else if listSlice data 1 17 ≠ cfg.expectedId then .error "Primary data authentication failed"
  -- metadataLength = data.readUInt8(17) (guarded by offset >= data.length)
  else if 17 ≥ data.length then .error "Incomplete primary data structure"
  -- command = data.readUInt8(18 + metadataLength) (guarded)
  else if 18 + data.getD 17 0 ≥ data.length then .error "Missing data command"
  -- port = data.readUInt16BE(19 + metadataLength) (guarded)
  else if 18 + data.getD 17 0 + 1 + 2 > data.length then
    .error "Incomplete port information for primary data"
  else
    match parseAddress data (18 + data.getD 17 0 + 3) with
    | .error e => .error e
    | .ok ai =>
      .ok { format := .primary,
            command := data.getD (18 + data.getD 17 0) 0,
            addrType := ai.type,
            address := ai.address,
            port := some (readUInt16BE data (18 + data.getD 17 0 + 1)),
            payload := data.drop ai.offset,
            headerLength := ai.offset }

/-- `DataProcessor.processStreamingData(data)` (src/unnamed/part_001).
Layout: 56-char auth hash compared to the configured digest, CRLF, command(1),
address via `parseAddress`, then a second CRLF is expected *immediately*
(the source parses no port here, and `addressInfo.port` is `undefined`).
The 56-byte slice is compared through `toString('ascii')`, which masks each
byte with 0x7F — modelled by `% 128`. -/
def processStreamingData (cfg : Config) (data : List Nat) : Except String MatchResult :=
  if data.length < 56 then .error "Insufficient streaming data length"
  else if (data.take 56).map (fun b => b % 128) ≠ cfg.expectedHash then
    .error "Streaming data authentication failed"
  else if 58 > data.length ∨ data.getD 56 0 ≠ 13 ∨ data.getD 57 0 ≠ 10 then
    .error "Invalid streaming data separator"
  else if 58 ≥ data.length then .error "Missing streaming command"
  else
    match parseAddress data 59 with
    | .error e => .error e
    | .ok ai =>
      if ai.offset + 2 > data.length ∨ data.getD ai.offset 0 ≠ 13 ∨
          data.getD (ai.offset + 1) 0 ≠ 10 then
        .error "Invalid streaming data second separator"
      else
        .ok { format := .streaming,
              command := data.getD 58 0,
              addrType := ai.type,
              address := ai.address,
              port := none,
              payload := data.drop (ai.offset + 2),
              headerLength := ai.offset + 2 }

/-- One character of `/^[a-f0-9]{56}$/i`: decimal digit or hex letter in
either case. -/
def isHexCharCode (c : Nat) : Bool :=
  (decide (48 ≤ c) && decide (c ≤ 57)) ||
  (decide (97 ≤ c) && decide (c ≤ 102)) ||
  (decide (65 ≤ c) && decide (c ≤ 70))

/-- `DataProcessor.detectDataFormat(data)` (src/unnamed/part_001): routes a
buffer to `'primary'`, `'streaming'` or `'unknown'`.  The streaming test runs
the hex regex over `data.slice(0,56).toString('ascii')`, i.e. over the bytes
masked with 0x7F. -/
def detectDataFormat (data : List Nat) : Option FormatTag :=
  if data.length < 16 then none
  else if data.getD 0 0 = 0 ∧ 17 ≤ data.length then some .primary
  else if 56 ≤ data.length ∧ (data.take 56).all (fun b => isHexCharCode (b % 128)) then
    some .streaming
  else none

/-- `DataProcessor.parseDataPacket(data)` (src/unnamed/part_001): rejects a
non-buffer/empty packet, routes by `detectDataFormat`, and runs the matching
processor. -/
def parseDataPacket (cfg : Config) (data : List Nat) : Except String MatchResult :=
  if data.length = 0 then .error "Invalid data packet"
  else
    match detectDataFormat data with
    | some .primary => processPrimaryData cfg data
    | some .streaming => processStreamingData cfg data
    | none => .error "Unknown data format"

/-- `DataProcessor.createPrimaryResponse`: version 0, metadata length 0,
command response 0. -/
def createPrimaryResponse : List Nat := [0, 0, 0]

/-- `DataProcessor.createStreamingResponse`: no response bytes. -/
def createStreamingResponse : List Nat := []

/-- `DataProcessor.createResponse(format, requestData)`. -/
def createResponse : FormatTag → List Nat
  | .primary => createPrimaryResponse
  | .streaming => createStreamingResponse

end DataProcessor

namespace StreamHandler

/-- Connection stage (`connectionInfo.stage` in src/src/websocket-manager.js):
`'dashboard'` (AWAIT), `'detected'` (between a successful match and the
outbound connect callback), `'streaming'` (RELAY). -/
inductive Stage
  | dashboard
  | detected
  | streaming
deriving DecidableEq

/-- Per-connection record (`connectionInfo`): the fields whose values drive
the handlers.  `hasTarget` models `targetConnection !== null`, `hasInterval`
models `dashboardInterval` being set, `wsOpen` models
`ws.readyState === 1`. -/
structure Conn where
  stage : Stage
  isDataStream : Bool
  buffer : List Nat
  hasTarget : Bool
  hasInterval : Bool
  wsOpen : Bool
  formatInfo : Option DataProcessor.MatchResult
deriving DecidableEq

/-- The record created by `handleChartConnection` for a newly accepted
socket, right after `startDashboardDataSending` has armed the periodic
timer. -/
def freshConn : Conn :=
  { stage := .dashboard, isDataStream := false, buffer := [],
    hasTarget := false, hasInterval := true, wsOpen := true,
    formatInfo := none }

/-- Outcome of the `JSON.parse(data.toString())` attempt at the top of
`handleConnectionMessage`: a ping with its timestamp, a subscribe with its
channel, some other valid JSON value, or a parse failure. -/
inductive JsonView
  | ping (timestamp : Int)
  | subscribe (channel : String)
  | other
  | notJson
deriving DecidableEq

/-- A client message: its raw bytes together with how `JSON.parse` classifies
them.  In the running system the view is a function of the bytes (computed by
the JSON library); the embedding carries both. -/
structure InMsg where
  raw : List Nat
  view : JsonView
deriving DecidableEq

/-- Is the message one of the two intercepted control shapes? -/
def isControlView : JsonView → Bool
  | .ping _ => true
  | .subscribe _ => true
  | _ => false

/-- Messages the manager sends to the client. -/
inductive OutMsg
  | pong (timestamp serverTime : Int)
  | subscriptionConfirmed (channel : String) (timestamp : Int)
  | dashboardUpdate
  | binary (bytes : List Nat)
deriving DecidableEq

/-- Externally observable side effects of one handler invocation. -/
inductive Effect
  | sendClient (m : OutMsg)
  | writeTarget (bytes : List Nat)
  | connectTarget (addr : DataProcessor.AddrVal) (port : Option Nat)
  | clearTimer
  | destroyTarget
  | closeWs
deriving DecidableEq

/-- `StreamHandler.detectDataFormat(connectionId, data)`
(src/src/websocket-manager.js, lines 285-318): append the new data to the
accumulation buffer, run the detector; on success clear the decoy interval,
move to stage `'detected'` and open the outbound connection
(`establishDataConnection`); on failure keep buffering, resetting the buffer
once it exceeds `config.dataSource.bufferSize`. -/
def detectDataFormat (cfg : Config) (conn : Conn) (data : List Nat) :
    Conn × List Effect :=
  match DataProcessor.parseDataPacket cfg (conn.buffer ++ data) with
  | .ok r =>
    ({ conn with buffer := conn.buffer ++ data,
                 hasInterval := false,
                 stage := .detected,
                 isDataStream := true,
                 formatInfo := some r },
     (if conn.hasInterval then [Effect.clearTimer] else []) ++
       [Effect.connectTarget r.address r.port])
  | .error _ =>
    if (conn.buffer ++ data).length > cfg.bufferSize then
      ({ conn with buffer := [] }, [])
    else
      ({ conn with buffer := conn.buffer ++ data }, [])

/-- `StreamHandler.forwardDataToTarget(connectionId, data)` (lines 421-433):
write the bytes to the target socket if one is attached, otherwise do
nothing.  (The `catch` arm closes the connection on a synchronous `write`
throw; a write is a plain effect here.) -/
def forwardDataToTarget (conn : Conn) (data : List Nat) : Conn × List Effect :=
  if conn.hasTarget then (conn, [Effect.writeTarget data]) else (conn, [])

/-- `StreamHandler.handleConnectionMessage(connectionId, data)`
(lines 186-278), for a registered connection: answer a JSON ping or
subscribe in *any* stage; otherwise fall through to the binary path, which
detects in `'dashboard'`, forwards in `'streaming'`, and does nothing in
`'detected'`. -/
def handleConnectionMessage (cfg : Config) (conn : Conn) (m : InMsg) (now : Int) :
    Conn × List Effect :=
  match m.view with
  | .ping ts => (conn, [Effect.sendClient (.pong ts now)])
  | .subscribe ch => (conn, [Effect.sendClient (.subscriptionConfirmed ch now)])
  | .other | .notJson =>
    if conn.stage = .dashboard then detectDataFormat cfg conn m.raw
    else if conn.stage = .streaming then forwardDataToTarget conn m.raw
    else (conn, [])

/-- The `'connect'` callback installed by `establishDataConnection`
(lines 341-357): move to `'streaming'`, attach the target socket, send the
format response (`sendFormatResponse` sends only a non-empty response and
only while the client socket is open), then write the leftover payload, if
any, to the target. -/
def onTargetConnect (conn : Conn) : Conn × List Effect :=
  match conn.formatInfo with
  | none => (conn, [])
  | some r =>
    ({ conn with stage := .streaming, hasTarget := true },
     (if conn.wsOpen ∧ DataProcessor.createResponse r.format ≠ [] then
        [Effect.sendClient (.binary (DataProcessor.createResponse r.format))]
      else []) ++
     (if r.payload ≠ [] then [Effect.writeTarget r.payload] else []))

/-- The target-socket `'data'` callback installed by
`setupDataSourceHandling` (lines 402-414): forward each chunk to the client
verbatim while the client socket is open. -/
def onTargetData (conn : Conn) (chunk : List Nat) : Conn × List Effect :=
  (conn, if conn.wsOpen then [Effect.sendClient (.binary chunk)] else [])

/-- `StreamHandler.sendDashboardData(connectionId)` (lines 124-179), run for
a registered connection: if the client socket is open, send a
`dashboard_update` message.  Note: the source checks only existence and
`readyState`, *not* the stage. -/
def sendDashboardData (conn : Conn) : List Effect :=
  if conn.wsOpen then [Effect.sendClient .dashboardUpdate] else []

/-- The `setInterval` callback of `startDashboardDataSending`
(lines 100-114): send a dashboard update while still in `'dashboard'` with
an open socket, otherwise clear the interval. -/
def onIntervalTick (conn : Conn) : Conn × List Effect :=
  if conn.stage = .dashboard ∧ conn.wsOpen then
    (conn, sendDashboardData conn)
  else
    ({ conn with hasInterval := false }, [Effect.clearTimer])

/-- `StreamHandler.sendDashboardData` at the manager level: the function
first looks the connection up in `activeConnections` and returns silently if
it is gone.  This is the body invoked by the delayed initial `setTimeout`
armed by `startDashboardDataSending` (lines 90-97). -/
def sendDashboardDataM (reg : List (String × Conn)) (id : String) : List Effect :=
  match reg.lookup id with
  | none => []
  | some conn => sendDashboardData conn

/-- `StreamHandler.closeConnection(connectionId)` (lines 440-471): look the
record up; if absent return `false` with no effects; otherwise clear the
timer if armed, destroy the target socket if attached, close the client
socket if still open, delete the record from `activeConnections`, and return
`true`.  Deletion from the JS `Map` is modelled as dropping every pair with
that key (a `Map` holds each key at most once). -/
def closeConnection (reg : List (String × Conn)) (id : String) :
    (List (String × Conn)) × Bool × List Effect :=
  match reg.lookup id with
  | none => (reg, false, [])
  | some conn =>
    (reg.filter (fun p => p.1 != id), true,
     (if conn.hasInterval then [Effect.clearTimer] else []) ++
     (if conn.hasTarget then [Effect.destroyTarget] else []) ++
     (if conn.wsOpen then [Effect.closeWs] else []))

/-- How many entries of the registry carry the given identifier. -/
def countKey (reg : List (String × Conn)) (id : String) : Nat :=
  (reg.filter (fun p => p.1 == id)).length

/-- Asynchronous callbacks that can reach one connection record. -/
inductive Event
  | clientMsg (m : InMsg)
  | targetConnected
  | targetData (chunk : List Nat)
  | initialTimeout
  | intervalTick

/-- Dispatch one callback.  `now` models `Date.now()` at the instant the
callback runs (it only feeds the timestamps echoed in control replies). -/
def stepEvent (cfg : Config) (now : Int) (conn : Conn) : Event → Conn × List Effect
  | .clientMsg m => handleConnectionMessage cfg conn m now
  | .targetConnected => onTargetConnect conn
  | .targetData c => onTargetData conn c
  | .initialTimeout => (conn, sendDashboardData conn)
  | .intervalTick => onIntervalTick conn

/-- Run a sequence of callbacks against one record, collecting effects in
order. -/
def runEvents (cfg : Config) (now : Int) (conn : Conn) : List Event → Conn × List Effect
  | [] => (conn, [])
  | e :: rest =>
    let s := stepEvent cfg now conn e
    let t := runEvents cfg now s.1 rest
    (t.1, s.2 ++ t.2)

/-- The bytes written to the target socket among a list of effects. -/
def writesToTarget (effs : List Effect) : List (List Nat) :=
  effs.filterMap (fun e => match e with | .writeTarget d => some d | _ => none)

end StreamHandler

/-! ## Shared fixtures and helper lemmas for the claim theorems -/

/-- A concrete configuration used by the closed witnesses: a 16-byte
identifier, a 56-character digest (all `'a'`), and the 8192-byte cap of
src/config.js. -/
def cfgEx : Config :=
  { expectedId := List.replicate 16 7,
    expectedHash := List.replicate 56 97,
    bufferSize := 8192 }

/-- A connection in RELAY: stage `'streaming'`, target attached, decoy
interval already cleared, client socket open. -/
def relayConn : StreamHandler.Conn :=
  { stage := .streaming, isDataStream := true, buffer := [],
    hasTarget := true, hasInterval := false, wsOpen := true,
    formatInfo := none }

/-- A binary client message whose bytes spell the JSON text
`{"type":"ping","timestamp":1}` — `JSON.parse(data.toString())` succeeds on
it, so `handleConnectionMessage` classifies it as a ping. -/
def pingRelayMsg : StreamHandler.InMsg :=
  ⟨DataProcessor.strBytes "\x7b\"type\":\"ping\",\"timestamp\":1\x7d", .ping 1⟩

/-- Inputs a RELAY-stage connection can receive that are not intercepted
control messages: data-bearing client messages that do not parse as a JSON
ping/subscribe, and chunks arriving from the target socket. -/
def relayEvent : StreamHandler.Event → Bool
  | .clientMsg m => !StreamHandler.isControlView m.view
  | .targetData _ => true
  | _ => false

/-- The single effect RELAY produces for each such input: the client bytes
written verbatim to the target, or the target chunk sent verbatim to the
client.  (The last arm is never reached for `relayEvent` inputs.) -/
def relayEffect : StreamHandler.Event → StreamHandler.Effect
  | .clientMsg m => .writeTarget m.raw
  | .targetData c => .sendClient (.binary c)
  | _ => .clearTimer

/-- In stage `'detected'`, a non-control message falls through every branch
of `handleConnectionMessage` and does nothing. -/
theorem handle_detected_noop (cfg : Config) (conn : StreamHandler.Conn)
    (m : StreamHandler.InMsg) (now : Int)
    (hstage : conn.stage = .detected)
    (hview : StreamHandler.isControlView m.view = false) :
    StreamHandler.handleConnectionMessage cfg conn m now = (conn, []) := by
  cases hv : m.view with
  | ping ts => rw [hv] at hview; simp [StreamHandler.isControlView] at hview
  | subscribe ch => rw [hv] at hview; simp [StreamHandler.isControlView] at hview
  | other => simp [StreamHandler.handleConnectionMessage, hv, hstage]
  | notJson => simp [StreamHandler.handleConnectionMessage, hv, hstage]

/-! ## C1 — relay passthrough -/

/-- C1 counterexample: in RELAY (stage `'streaming'`, target attached), a
client message whose bytes parse as a JSON ping is intercepted and answered
with a pong, and nothing is written to the target — contradicting the claim
that every client message in RELAY is written verbatim to the target with no
inspection, interception or answering. -/
theorem relay_interception_counterexample :
    StreamHandler.handleConnectionMessage cfgEx relayConn pingRelayMsg 0 =
      (relayConn, [StreamHandler.Effect.sendClient (.pong 1 0)]) ∧
    StreamHandler.writesToTarget
        (StreamHandler.handleConnectionMessage cfgEx relayConn pingRelayMsg 0).2 = [] :=
  ⟨rfl, rfl⟩

/-- C1 amended: in RELAY, every client message that does **not** parse as a
JSON ping or subscribe is written verbatim, in order, to the target socket,
and every chunk received from the target socket is sent verbatim, in order,
to the client (the client socket being open); the connection state is left
untouched.  Messages parsing as ping/subscribe are intercepted and answered
even in RELAY (see the counterexample). -/
theorem relay_passthrough_amended (cfg : Config) (now : Int)
    (conn : StreamHandler.Conn) (evs : List StreamHandler.Event)
    (hstage : conn.stage = .streaming) (htgt : conn.hasTarget = true)
    (hopen : conn.wsOpen = true)
    (hevs : ∀ e ∈ evs, relayEvent e = true) :
    StreamHandler.runEvents cfg now conn evs = (conn, evs.map relayEffect) := by
  induction evs with
  | nil => simp [StreamHandler.runEvents]
  | cons e rest ih =>
    have he : relayEvent e = true := hevs e (List.mem_cons_self e rest)
    have hrest : ∀ x ∈ rest, relayEvent x = true :=
      fun x hx => hevs x (List.mem_cons_of_mem e hx)
    have hstep : StreamHandler.stepEvent cfg now conn e = (conn, [relayEffect e]) := by
      cases e with
      | clientMsg m =>
        cases hv : m.view with
        | ping ts => simp [relayEvent, hv, StreamHandler.isControlView] at he
        | subscribe ch => simp [relayEvent, hv, StreamHandler.isControlView] at he
        | other =>
          simp [StreamHandler.stepEvent, StreamHandler.handleConnectionMessage, hv,
                hstage, StreamHandler.forwardDataToTarget, htgt, relayEffect]
        | notJson =>
          simp [StreamHandler.stepEvent, StreamHandler.handleConnectionMessage, hv,
                hstage, StreamHandler.forwardDataToTarget, htgt, relayEffect]
      | targetConnected => simp [relayEvent] at he
      | targetData c =>
        simp [StreamHandler.stepEvent, StreamHandler.onTargetData, hopen, relayEffect]
      | initialTimeout => simp [relayEvent] at he
      | intervalTick => simp [relayEvent] at he
    simp [StreamHandler.runEvents, hstep, ih hrest]

/-- C1 amended, witnessed on a concrete RELAY trace: two data messages
interleaved with a target chunk pass through verbatim and in order. -/
theorem relay_passthrough_amended_witness :
    (∀ e ∈ ([.clientMsg ⟨[1, 2, 3], .notJson⟩, .targetData [4, 5],
             .clientMsg ⟨[6], .other⟩] : List StreamHandler.Event),
        relayEvent e = true) ∧
    StreamHandler.runEvents cfgEx 0 relayConn
        [.clientMsg ⟨[1, 2, 3], .notJson⟩, .targetData [4, 5],
         .clientMsg ⟨[6], .other⟩] =
      (relayConn, [.writeTarget [1, 2, 3], .sendClient (.binary [4, 5]),
                   .writeTarget [6]]) :=
  ⟨by decide, by
    have h := relay_passthrough_amended cfgEx 0 relayConn
      [.clientMsg ⟨[1, 2, 3], .notJson⟩, .targetData [4, 5],
       .clientMsg ⟨[6], .other⟩] rfl rfl rfl (by decide)
    simpa using h⟩

/-! ## C8 — idempotent close -/

/-- After removing a key, looking it up finds nothing. -/
theorem lookup_after_remove (reg : List (String × StreamHandler.Conn)) (id : String) :
    (reg.filter (fun p => p.1 != id)).lookup id = none := by
  induction reg with
  | nil => rfl
  | cons p rest ih =>
    by_cases h : p.1 = id
    · simp [List.filter_cons, h, ih]
    · have hb : (id == p.1) = false := by
        simp only [beq_eq_false_iff_ne]; exact fun hh => h hh.symm
      simp [List.filter_cons, h, List.lookup, hb, ih]

/-- After removing a key, the registry holds it zero times. -/
theorem countKey_after_remove (reg : List (String × StreamHandler.Conn)) (id : String) :
    StreamHandler.countKey (reg.filter (fun p => p.1 != id)) id = 0 := by
  simp only [StreamHandler.countKey, List.filter_filter, List.length_eq_zero]
  rw [List.filter_eq_nil_iff]
  intro p _
  by_cases h : p.1 = id <;> simp [h]

/-- A key that `lookup` cannot find occurs zero times. -/
theorem countKey_eq_zero_of_lookup_none (reg : List (String × StreamHandler.Conn))
    (id : String) (h : reg.lookup id = none) :
    StreamHandler.countKey reg id = 0 := by
  induction reg with
  | nil => rfl
  | cons p rest ih =>
    rw [List.lookup] at h
    cases hk : id == p.1 with
    | true => rw [hk] at h; exact absurd h (by simp)
    | false =>
      rw [hk] at h
      have hpk : (p.1 == id) = false := by
        simp only [beq_eq_false_iff_ne] at hk ⊢; exact fun hh => hk hh.symm
      simp only [StreamHandler.countKey, List.filter_cons, hpk]
      simpa [StreamHandler.countKey] using ih h

/-- C8: closing the same connection identifier twice is safe: the first call
(on a present record) reports a removal, the second call returns `false`,
changes nothing and performs no side effects, and afterwards the registry
contains the identifier exactly zero times. -/
theorem close_connection_idempotent (reg : List (String × StreamHandler.Conn))
    (id : String) (h : (reg.lookup id).isSome) :
    (StreamHandler.closeConnection reg id).2.1 = true ∧
    StreamHandler.closeConnection (StreamHandler.closeConnection reg id).1 id =
      ((StreamHandler.closeConnection reg id).1, false, []) ∧
    StreamHandler.countKey (StreamHandler.closeConnection reg id).1 id = 0 := by
  cases hl : reg.lookup id with
  | none => rw [hl] at h; exact absurd h (by simp)
  | some conn =>
    refine ⟨?_, ?_, ?_⟩
    · simp [StreamHandler.closeConnection, hl]
    · simp [StreamHandler.closeConnection, hl, lookup_after_remove]
    · simp [StreamHandler.closeConnection, hl, countKey_after_remove]

/-- C8 witnessed on a one-entry registry. -/
theorem close_connection_idempotent_witness :
    (([("c1", relayConn)] : List (String × StreamHandler.Conn)).lookup "c1").isSome ∧
    ((StreamHandler.closeConnection [("c1", relayConn)] "c1").2.1 = true ∧
     StreamHandler.closeConnection
         (StreamHandler.closeConnection [("c1", relayConn)] "c1").1 "c1" =
       ((StreamHandler.closeConnection [("c1", relayConn)] "c1").1, false, []) ∧
     StreamHandler.countKey (StreamHandler.closeConnection [("c1", relayConn)] "c1").1 "c1" = 0) :=
  ⟨by decide, close_connection_idempotent [("c1", relayConn)] "c1" (by decide)⟩

/-! ## C9 — decoy emission after leaving AWAIT -/

/-- C9 (code evaluated at the failing scenario): `startDashboardDataSending`
arms a one-shot 1000 ms `setTimeout` whose handle is never stored and never
cancelled; when it fires it runs `sendDashboardData`, which checks only that
the record is still registered and the socket open — not the stage.  So for a
connection that completed detection within the first second (stage
`'streaming'`), the delayed initial decoy send still emits a
`dashboard_update`, contradicting the claim (and §4.4 of the spec) that no
dashboard_update is ever sent after AWAIT is exited.  The `setInterval` path
does check the stage; only the initial `setTimeout` is unguarded. -/
theorem initial_decoy_fires_after_await (reg : List (String × StreamHandler.Conn))
    (id : String) (conn : StreamHandler.Conn)
    (hlook : reg.lookup id = some conn)
    (hstage : conn.stage = .streaming)
    (hopen : conn.wsOpen = true) :
    StreamHandler.sendDashboardDataM reg id =
      [StreamHandler.Effect.sendClient .dashboardUpdate] ∧
    conn.stage ≠ .dashboard := by
  refine ⟨?_, by rw [hstage]; decide⟩
  simp [StreamHandler.sendDashboardDataM, hlook, StreamHandler.sendDashboardData, hopen]

/-- C9 witnessed on a concrete registry holding one RELAY-stage
connection. -/
theorem initial_decoy_fires_after_await_witness :
    (([("c1", relayConn)] : List (String × StreamHandler.Conn)).lookup "c1" =
        some relayConn) ∧
    relayConn.stage = .streaming ∧ relayConn.wsOpen = true ∧
    (StreamHandler.sendDashboardDataM [("c1", relayConn)] "c1" =
        [StreamHandler.Effect.sendClient .dashboardUpdate] ∧
      relayConn.stage ≠ .dashboard) :=
  ⟨by decide, rfl, rfl,
    initial_decoy_fires_after_await [("c1", relayConn)] "c1" relayConn (by decide) rfl rfl⟩

/-! ## C10 — stage 'detected' discards client data -/

/-- C10: while the stage is `'detected'` (match done, outbound connect still
pending), a non-JSON client message is silently discarded: the record is
unchanged (nothing is appended to the buffer), no effect is produced — in
particular nothing is ever written to the target, so those bytes cannot
surface later; and a trace beginning with such a message behaves exactly as
the trace without it. -/
theorem detected_stage_discards_binary (cfg : Config) (conn : StreamHandler.Conn)
    (m : StreamHandler.InMsg) (now : Int) (evs : List StreamHandler.Event)
    (hstage : conn.stage = .detected) (hview : m.view = .notJson) :
    StreamHandler.handleConnectionMessage cfg conn m now = (conn, []) ∧
    StreamHandler.runEvents cfg now conn (.clientMsg m :: evs) =
      StreamHandler.runEvents cfg now conn evs := by
  have h1 : StreamHandler.handleConnectionMessage cfg conn m now = (conn, []) :=
    handle_detected_noop cfg conn m now hstage
      (by rw [hview]; rfl)
  exact ⟨h1, by simp [StreamHandler.runEvents, StreamHandler.stepEvent, h1]⟩

/-- C10 witnessed on a detected-stage connection followed by a later target
connect and relay chunk. -/
theorem detected_stage_discards_binary_witness :
    ({ relayConn with stage := .detected, hasTarget := false } : StreamHandler.Conn).stage
        = .detected ∧
    (StreamHandler.handleConnectionMessage cfgEx
          { relayConn with stage := .detected, hasTarget := false }
          ⟨[9, 9, 9], .notJson⟩ 0 =
        ({ relayConn with stage := .detected, hasTarget := false }, []) ∧
      StreamHandler.runEvents cfgEx 0
          { relayConn with stage := .detected, hasTarget := false }
          (.clientMsg ⟨[9, 9, 9], .notJson⟩ :: [.targetConnected, .targetData [5]]) =
        StreamHandler.runEvents cfgEx 0
          { relayConn with stage := .detected, hasTarget := false }
          [.targetConnected, .targetData [5]]) :=
  ⟨rfl,
    detected_stage_discards_binary cfgEx
      { relayConn with stage := .detected, hasTarget := false }
      ⟨[9, 9, 9], .notJson⟩ 0 [.targetConnected, .targetData [5]] rfl rfl⟩

/-! ## C6 — uniform failure outcome in AWAIT -/

/-- C6: in AWAIT (stage `'dashboard'`), whenever the detector fails on the
accumulated buffer — whatever the reason `e` (insufficient bytes, bad
version or separator, identifier/digest mismatch, unsupported address
type) — the handler sends nothing, the stage stays `'dashboard'`, and the
buffer simply accumulates (resetting only past the cap).  The outcome is the
same function of the buffer for **every** error, so a frame with a flipped
identifier byte is indistinguishable, at the client interface, from a frame
that merely needs more bytes. -/
theorem detection_failure_uniform_outcome (cfg : Config) (conn : StreamHandler.Conn)
    (m : StreamHandler.InMsg) (now : Int) (e : String)
    (hstage : conn.stage = .dashboard)
    (hview : StreamHandler.isControlView m.view = false)
    (herr : DataProcessor.parseDataPacket cfg (conn.buffer ++ m.raw) = .error e) :
    StreamHandler.handleConnectionMessage cfg conn m now =
      (if (conn.buffer ++ m.raw).length > cfg.bufferSize then
        ({ conn with buffer := [] }, [])
      else
        ({ conn with buffer := conn.buffer ++ m.raw }, [])) := by
  cases hv : m.view with
  | ping ts => rw [hv] at hview; simp [StreamHandler.isControlView] at hview
  | subscribe ch => rw [hv] at hview; simp [StreamHandler.isControlView] at hview
  | other =>
    simp [StreamHandler.handleConnectionMessage, hv, hstage,
          StreamHandler.detectDataFormat, herr]
  | notJson =>
    simp [StreamHandler.handleConnectionMessage, hv, hstage,
          StreamHandler.detectDataFormat, herr]

/-- A Format P frame for `cfgEx` whose first identifier byte is flipped
(8 instead of 7): authentication fails. -/
def flippedIdFrame : List Nat :=
  [0] ++ (8 :: List.replicate 15 7) ++ [0, 0, 1, 187, 1, 93, 184, 216, 34]

/-- C6 witnessed: the flipped-identifier frame fails with the dedicated
auth-failure error, yet the observable outcome is the plain buffering one. -/
theorem detection_failure_uniform_outcome_witness :
    StreamHandler.freshConn.stage = .dashboard ∧
    DataProcessor.parseDataPacket cfgEx (StreamHandler.freshConn.buffer ++ flippedIdFrame) =
      .error "Primary data authentication failed" ∧
    StreamHandler.handleConnectionMessage cfgEx StreamHandler.freshConn
        ⟨flippedIdFrame, .notJson⟩ 0 =
      (if (StreamHandler.freshConn.buffer ++ flippedIdFrame).length > cfgEx.bufferSize then
        ({ StreamHandler.freshConn with buffer := [] }, [])
      else
        ({ StreamHandler.freshConn with buffer :=
            StreamHandler.freshConn.buffer ++ flippedIdFrame }, [])) :=
  ⟨rfl, rfl,
    detection_failure_uniform_outcome cfgEx StreamHandler.freshConn
      ⟨flippedIdFrame, .notJson⟩ 0 "Primary data authentication failed" rfl rfl rfl⟩

/-! ## C7 — buffer cap reset -/

/-- C7: in AWAIT, when a failed detection leaves the accumulation buffer
above `config.dataSource.bufferSize`, the buffer is reset to empty with no
message to the client and the stage stays `'dashboard'`; afterwards the
record is exactly a fresh-buffer copy of itself, so detection accepts new
data as before — in particular a subsequent message carrying a whole valid
frame matches immediately. -/
theorem buffer_cap_reset (cfg : Config) (conn : StreamHandler.Conn)
    (m : StreamHandler.InMsg) (now : Int) (e : String)
    (hstage : conn.stage = .dashboard)
    (hview : StreamHandler.isControlView m.view = false)
    (herr : DataProcessor.parseDataPacket cfg (conn.buffer ++ m.raw) = .error e)
    (hcap : (conn.buffer ++ m.raw).length > cfg.bufferSize) :
    StreamHandler.handleConnectionMessage cfg conn m now =
      ({ conn with buffer := [] }, []) ∧
    (∀ (m2 : StreamHandler.InMsg) (r2 : DataProcessor.MatchResult) (now2 : Int),
      StreamHandler.isControlView m2.view = false →
      DataProcessor.parseDataPacket cfg m2.raw = .ok r2 →
      (StreamHandler.handleConnectionMessage cfg { conn with buffer := [] } m2 now2).1.stage
          = .detected ∧
      (StreamHandler.handleConnectionMessage cfg { conn with buffer := [] } m2 now2).1.formatInfo
          = some r2) := by
  constructor
  · cases hv : m.view with
    | ping ts => rw [hv] at hview; simp [StreamHandler.isControlView] at hview
    | subscribe ch => rw [hv] at hview; simp [StreamHandler.isControlView] at hview
    | other =>
      simp [StreamHandler.handleConnectionMessage, hv, hstage,
            StreamHandler.detectDataFormat, herr, hcap]
      intro hle
      rw [List.length_append] at hcap
      omega
    | notJson =>
      simp [StreamHandler.handleConnectionMessage, hv, hstage,
            StreamHandler.detectDataFormat, herr, hcap]
      intro hle
      rw [List.length_append] at hcap
      omega
  · intro m2 r2 now2 hview2 hok2
    have hb : ([] : List Nat) ++ m2.raw = m2.raw := List.nil_append _
    cases hv : m2.view with
    | ping ts => rw [hv] at hview2; simp [StreamHandler.isControlView] at hview2
    | subscribe ch => rw [hv] at hview2; simp [StreamHandler.isControlView] at hview2
    | other =>
      constructor <;>
        simp [StreamHandler.handleConnectionMessage, hv, hstage,
              StreamHandler.detectDataFormat, hb, hok2]
    | notJson =>
      constructor <;>
        simp [StreamHandler.handleConnectionMessage, hv, hstage,
              StreamHandler.detectDataFormat, hb, hok2]

/-- An AWAIT connection whose buffer already holds 8192 bytes of data that
never matches (all `0x01`). -/
def bigBufConn : StreamHandler.Conn :=
  { StreamHandler.freshConn with buffer := List.replicate 8192 1 }

/-- A well-formed Format P frame for `cfgEx` with no trailing payload:
version 0, the configured identifier, addon length 0, command 0, port 443,
IPv4 `93.184.216.34`. -/
def primaryFrameEx : List Nat :=
  [0] ++ List.replicate 16 7 ++ [0, 0, 1, 187, 1, 93, 184, 216, 34]

/-- The parse result of `primaryFrameEx` under `cfgEx`. -/
def primaryResultEx : DataProcessor.MatchResult :=
  { format := .primary, command := 0, addrType := .ipv4,
    address := .ipv4 [93, 184, 216, 34], port := some 443,
    payload := [], headerLength := 26 }

/-- The 8193 bytes of all-`0x01` data never match either format. -/
theorem bigbuf_parse_fails :
    DataProcessor.parseDataPacket cfgEx (bigBufConn.buffer ++ [1]) =
      .error "Unknown data format" := by
  have hrep : bigBufConn.buffer ++ [1] = List.replicate 8193 1 := by
    show List.replicate 8192 1 ++ [1] = _
    rw [← List.replicate_succ']
  have hcons : List.replicate 8193 (1 : Nat) = 1 :: List.replicate 8192 1 :=
    List.replicate_succ 1 8192
  have hlen : (List.replicate 8193 (1 : Nat)).length = 8193 :=
    List.length_replicate 8193 1
  rw [hrep]
  unfold DataProcessor.parseDataPacket
  rw [if_neg (by rw [hlen]; decide)]
  have hfmt : DataProcessor.detectDataFormat (List.replicate 8193 1) = none := by
    unfold DataProcessor.detectDataFormat
    rw [if_neg (by rw [hlen]; decide), if_neg, if_neg]
    · rintro ⟨-, hall⟩
      rw [List.take_replicate] at hall
      have hmin : min 56 8193 = 56 := by decide
      rw [hmin] at hall
      exact absurd hall (by decide)
    · rintro ⟨h01, -⟩
      rw [hcons] at h01
      exact absurd h01 (by decide)
  rw [hfmt]

/-- The buffer holding 8192 bytes plus one more exceeds the cap. -/
theorem bigbuf_over_cap : (bigBufConn.buffer ++ [1]).length > cfgEx.bufferSize := by
  show (List.replicate 8192 1 ++ [1]).length > 8192
  rw [List.length_append, List.length_replicate]
  decide

/-- C7 witnessed: one more byte on a full 8192-byte buffer triggers the
silent reset, and a whole valid frame sent right afterwards matches. -/
theorem buffer_cap_reset_witness :
    (bigBufConn.buffer ++ [1]).length > cfgEx.bufferSize ∧
    DataProcessor.parseDataPacket cfgEx (bigBufConn.buffer ++ [1]) =
      .error "Unknown data format" ∧
    StreamHandler.handleConnectionMessage cfgEx bigBufConn ⟨[1], .notJson⟩ 0 =
      ({ bigBufConn with buffer := [] }, []) ∧
    (StreamHandler.handleConnectionMessage cfgEx { bigBufConn with buffer := [] }
        ⟨primaryFrameEx, .notJson⟩ 0).1.formatInfo = some primaryResultEx :=
  ⟨bigbuf_over_cap, bigbuf_parse_fails,
    (buffer_cap_reset cfgEx bigBufConn ⟨[1], .notJson⟩ 0 "Unknown data format"
      rfl rfl bigbuf_parse_fails bigbuf_over_cap).1,
    ((buffer_cap_reset cfgEx bigBufConn ⟨[1], .notJson⟩ 0 "Unknown data format"
      rfl rfl bigbuf_parse_fails bigbuf_over_cap).2
      ⟨primaryFrameEx, .notJson⟩ primaryResultEx 0 rfl rfl).2⟩

/-! ## C4 — well-formed Format P frame with IPv4 target -/

/-- Any frame laid out as version 0, the configured identifier, addon
length 0, a command byte, a big-endian port, address type 1 and four address
bytes — followed by arbitrary trailing bytes — parses to a `'primary'` match
whose payload is exactly the trailing bytes. -/
theorem primary_ipv4_ok (cfg : Config) (cmd p1 p2 a b c d : Nat) (trailing : List Nat)
    (hid : cfg.expectedId.length = 16) :
    DataProcessor.parseDataPacket cfg
        ((0 :: cfg.expectedId) ++ ([0, cmd, p1, p2, 1, a, b, c, d] ++ trailing)) =
      .ok { format := .primary, command := cmd, addrType := .ipv4,
            address := .ipv4 [a, b, c, d], port := some (256 * p1 + p2),
            payload := trailing, headerLength := 26 } := by
  set I : List Nat := 0 :: cfg.expectedId with hIdef
  set R : List Nat := [0, cmd, p1, p2, 1, a, b, c, d] ++ trailing with hRdef
  have hI : I.length = 17 := by simp [hIdef, hid]
  have hlen : (I ++ R).length = 26 + trailing.length := by
    rw [List.length_append, hI, hRdef, List.length_append]
    simp only [List.length_cons, List.length_nil]
    omega
  have hget : ∀ k, (I ++ R).getD (17 + k) 0 = R.getD k 0 := by
    intro k
    rw [List.getD_append_right I R 0 (17 + k) (by rw [hI]; omega), hI,
        Nat.add_sub_cancel_left]
  have hg0 : (I ++ R).getD 0 0 = 0 := rfl
  have hmd : (I ++ R).getD 17 0 = 0 := by
    have h := hget 0
    rw [Nat.add_zero] at h
    rw [h, hRdef]
    rfl
  have hcmd : (I ++ R).getD 18 0 = cmd := by
    rw [show (18 : Nat) = 17 + 1 from rfl, hget 1, hRdef]
    rfl
  have hp1 : (I ++ R).getD 19 0 = p1 := by
    rw [show (19 : Nat) = 17 + 2 from rfl, hget 2, hRdef]
    rfl
  have hp2 : (I ++ R).getD 20 0 = p2 := by
    rw [show (20 : Nat) = 17 + 3 from rfl, hget 3, hRdef]
    rfl
  have ha1 : (I ++ R).getD 21 0 = 1 := by
    rw [show (21 : Nat) = 17 + 4 from rfl, hget 4, hRdef]
    rfl
  have hslice : DataProcessor.listSlice (I ++ R) 1 17 = cfg.expectedId := by
    have ht : (I ++ R).take 17 = I := by
      rw [← hI]
      exact List.take_left I R
    rw [DataProcessor.listSlice, ht, hIdef]
    rfl
  have htake26 : (I ++ R).take 26 = I ++ R.take 9 := by
    rw [show (26 : Nat) = I.length + 9 by rw [hI]]
    exact List.take_append 9
  have htR : R.take 9 = [0, cmd, p1, p2, 1, a, b, c, d] := by
    rw [hRdef]
    rfl
  have haddr : DataProcessor.listSlice (I ++ R) 22 26 = [a, b, c, d] := by
    rw [DataProcessor.listSlice, htake26, htR,
        show (22 : Nat) = I.length + 5 by rw [hI], List.drop_append 5]
    rfl
  have hdrop26 : (I ++ R).drop 26 = trailing := by
    rw [show (26 : Nat) = I.length + 9 by rw [hI], List.drop_append 9, hRdef]
    rfl
  have hPA : DataProcessor.parseAddress (I ++ R) 21 =
      .ok ⟨.ipv4, .ipv4 [a, b, c, d], 26⟩ := by
    unfold DataProcessor.parseAddress
    rw [if_neg (by rw [hlen]; omega), ha1, if_pos rfl,
        if_neg (by rw [hlen]; omega), haddr]
  unfold DataProcessor.parseDataPacket
  rw [if_neg (by rw [hlen]; omega)]
  have hfmt : DataProcessor.detectDataFormat (I ++ R) = some .primary := by
    unfold DataProcessor.detectDataFormat
    rw [if_neg (by rw [hlen]; omega), if_pos ⟨hg0, by rw [hlen]; omega⟩]
  rw [hfmt]
  unfold DataProcessor.processPrimaryData
  rw [if_neg (by rw [hlen]; omega), hg0, if_neg (by norm_num), hslice,
      if_neg (by simp), if_neg (by rw [hlen]; omega), hmd,
      if_neg (by rw [hlen]; omega), if_neg (by rw [hlen]; omega),
      show (18 + 0 + 3 : Nat) = 21 from rfl, hPA,
      show (18 + 0 : Nat) = 18 from rfl, hcmd,
      show (18 + 0 + 1 : Nat) = 19 from rfl,
      DataProcessor.readUInt16BE, hp1,
      show (19 + 1 : Nat) = 20 from rfl, hp2]
  dsimp only
  rw [hdrop26]

/-- C4: a Format P frame built with version 0, the exact configured 16-byte
identifier, addon length 0, any command byte, big-endian port 443, address
type 1 and the address bytes of 93.184.216.34, followed by any trailing
bytes, matches as `'primary'` with an IPv4 target rendered
`"93.184.216.34"`, port 443, and leftover payload exactly the trailing
bytes. -/
theorem primary_frame_parses_ipv4_443 (eid ehash : List Nat) (cap cmd : Nat)
    (trailing : List Nat) (hlen : eid.length = 16) :
    DataProcessor.parseDataPacket ⟨eid, ehash, cap⟩
        ([0] ++ eid ++ [0, cmd, 1, 187, 1, 93, 184, 216, 34] ++ trailing) =
      .ok { format := .primary, command := cmd, addrType := .ipv4,
            address := .ipv4 [93, 184, 216, 34], port := some 443,
            payload := trailing, headerLength := 26 } ∧
    DataProcessor.renderIPv4 [93, 184, 216, 34] = "93.184.216.34" := by
  constructor
  · have h := primary_ipv4_ok ⟨eid, ehash, cap⟩ cmd 1 187 93 184 216 34 trailing hlen
    norm_num at h
    simpa using h
  · rfl

/-- C4 witnessed at a concrete identifier, command 7 and trailing payload
`[202, 254]`. -/
theorem primary_frame_parses_ipv4_443_witness :
    (List.replicate 16 7).length = 16 ∧
    (DataProcessor.parseDataPacket ⟨List.replicate 16 7, List.replicate 56 97, 8192⟩
        ([0] ++ List.replicate 16 7 ++ [0, 7, 1, 187, 1, 93, 184, 216, 34] ++ [202, 254]) =
      .ok { format := .primary, command := 7, addrType := .ipv4,
            address := .ipv4 [93, 184, 216, 34], port := some 443,
            payload := [202, 254], headerLength := 26 } ∧
     DataProcessor.renderIPv4 [93, 184, 216, 34] = "93.184.216.34") :=
  ⟨rfl, primary_frame_parses_ipv4_443 (List.replicate 16 7) (List.replicate 56 97)
    8192 7 [202, 254] rfl⟩

/-! ## C3 — a primary match requires version 0 and the exact identifier -/

/-- A successful `processStreamingData` result is always tagged
`'streaming'`. -/
theorem processStreamingData_format (cfg : Config) (data : List Nat)
    (r : DataProcessor.MatchResult)
    (h : DataProcessor.processStreamingData cfg data = .ok r) :
    r.format = .streaming := by
  unfold DataProcessor.processStreamingData at h
  split at h
  · exact absurd h (by simp)
  split at h
  · exact absurd h (by simp)
  split at h
  · exact absurd h (by simp)
  split at h
  · exact absurd h (by simp)
  split at h
  · exact absurd h (by simp)
  next ai heq =>
    split at h
    · exact absurd h (by simp)
    · cases h
      rfl

/-- A successful `processPrimaryData` result carries version byte 0 and the
configured identifier in bytes 1..16. -/
theorem processPrimaryData_auth (cfg : Config) (data : List Nat)
    (r : DataProcessor.MatchResult)
    (h : DataProcessor.processPrimaryData cfg data = .ok r) :
    data.getD 0 0 = 0 ∧ DataProcessor.listSlice data 1 17 = cfg.expectedId := by
  unfold DataProcessor.processPrimaryData at h
  split at h
  · exact absurd h (by simp)
  split at h
  · exact absurd h (by simp)
  next hver =>
    split at h
    · exact absurd h (by simp)
    next hident =>
      exact ⟨by omega, by
        by_contra hne
        exact hident hne⟩

/-- C3: the detector yields a Format P (`'primary'`) match only when the
buffer's first byte is exactly 0 and bytes 1 through 16 equal the configured
identifier byte-for-byte; a buffer violating either condition never produces
a `'primary'` match (it can at most match as `'streaming'`, or fail). -/
theorem primary_match_requires_version_and_identifier (cfg : Config)
    (data : List Nat) (r : DataProcessor.MatchResult)
    (hok : DataProcessor.parseDataPacket cfg data = .ok r)
    (hfmt : r.format = .primary) :
    data.getD 0 0 = 0 ∧ DataProcessor.listSlice data 1 17 = cfg.expectedId := by
  unfold DataProcessor.parseDataPacket at hok
  split at hok
  · exact absurd hok (by simp)
  cases hF : DataProcessor.detectDataFormat data with
  | none => rw [hF] at hok; exact absurd hok (by simp)
  | some f =>
    rw [hF] at hok
    cases f with
    | primary => exact processPrimaryData_auth cfg data r hok
    | streaming =>
      have := processStreamingData_format cfg data r hok
      rw [hfmt] at this
      exact absurd this (by simp)

/-- C3 witnessed on the concrete frame of the C4 witness: its first byte is
0 and its identifier slice is the configured one. -/
theorem primary_match_requires_version_and_identifier_witness :
    DataProcessor.parseDataPacket cfgEx primaryFrameEx = .ok primaryResultEx ∧
    primaryResultEx.format = .primary ∧
    (primaryFrameEx.getD 0 0 = 0 ∧
      DataProcessor.listSlice primaryFrameEx 1 17 = cfgEx.expectedId) :=
  ⟨rfl, rfl,
    primary_match_requires_version_and_identifier cfgEx primaryFrameEx
      primaryResultEx rfl rfl⟩

/-! ## C2 — Format S frame carrying a port -/

/-- C2 (code evaluated at the claim's frame): a Format S frame laid out
exactly as the claim says — 56 lowercase-hex digest characters, CRLF, a
command byte, address type 3 with the length-prefixed domain
`"example.com"`, the big-endian port bytes `0x1F 0x90` (8080), CRLF — is
**rejected** with `'Invalid streaming data second separator'`:
`processStreamingData` expects the CRLF immediately after the address and
parses no port at all (`parseAddress` no longer returns one, so even a frame
it accepts gets an undefined `target.port`). -/
theorem streaming_frame_with_port_rejected (eid digest : List Nat) (cap cmd : Nat)
    (hlen : digest.length = 56)
    (hhex : ∀ b ∈ digest, (48 ≤ b ∧ b ≤ 57) ∨ (97 ≤ b ∧ b ≤ 102)) :
    DataProcessor.parseDataPacket ⟨eid, digest, cap⟩
        (digest ++ ([13, 10, cmd, 3, 11] ++ DataProcessor.strBytes "example.com" ++
          [31, 144, 13, 10])) =
      .error "Invalid streaming data second separator" := by
  have hsb : [13, 10, cmd, 3, 11] ++ DataProcessor.strBytes "example.com" ++
      [31, 144, 13, 10] =
      [13, 10, cmd, 3, 11, 101, 120, 97, 109, 112, 108, 101, 46, 99, 111, 109,
       31, 144, 13, 10] := rfl
  rw [hsb]
  set R : List Nat :=
    [13, 10, cmd, 3, 11, 101, 120, 97, 109, 112, 108, 101, 46, 99, 111, 109,
     31, 144, 13, 10] with hRdef
  have hlen76 : (digest ++ R).length = 76 := by
    rw [List.length_append, hlen]
    rfl
  have hgd : ∀ k, (digest ++ R).getD (56 + k) 0 = R.getD k 0 := by
    intro k
    rw [List.getD_append_right digest R 0 (56 + k) (by rw [hlen]; omega), hlen,
        Nat.add_sub_cancel_left]
  have h56 : (digest ++ R).getD 56 0 = 13 := by
    have h := hgd 0
    rw [Nat.add_zero] at h
    rw [h, hRdef]
    rfl
  have h57 : (digest ++ R).getD 57 0 = 10 := by
    rw [show (57 : Nat) = 56 + 1 from rfl, hgd 1, hRdef]
    rfl
  have h59 : (digest ++ R).getD 59 0 = 3 := by
    rw [show (59 : Nat) = 56 + 3 from rfl, hgd 3, hRdef]
    rfl
  have h60 : (digest ++ R).getD 60 0 = 11 := by
    rw [show (60 : Nat) = 56 + 4 from rfl, hgd 4, hRdef]
    rfl
  have h72 : (digest ++ R).getD 72 0 = 31 := by
    rw [show (72 : Nat) = 56 + 16 from rfl, hgd 16, hRdef]
    rfl
  have htake : (digest ++ R).take 56 = digest := by
    rw [List.take_append_of_le_length (by rw [hlen])]
    exact List.take_of_length_le (by rw [hlen])
  have hmod : ∀ b ∈ digest, b % 128 = b := by
    intro b hb
    rcases hhex b hb with ⟨-, h2⟩ | ⟨-, h2⟩ <;> exact Nat.mod_eq_of_lt (by omega)
  have hmap : digest.map (fun b => b % 128) = digest := by
    conv_rhs => rw [← List.map_id digest]
    exact List.map_congr_left hmod
  have hd0 : (digest ++ R).getD 0 0 ≠ 0 := by
    rw [List.getD_append digest R 0 0 (by rw [hlen]; omega)]
    have hmem : digest.getD 0 0 ∈ digest := by
      rw [List.getD_eq_getElem digest 0 (by rw [hlen]; omega)]
      exact List.getElem_mem (by rw [hlen]; omega)
    rcases hhex _ hmem with ⟨h1, -⟩ | ⟨h1, -⟩ <;> omega
  have hPA : DataProcessor.parseAddress (digest ++ R) 59 =
      .ok ⟨.domain, .domain (DataProcessor.listSlice (digest ++ R) 61 72), 72⟩ := by
    unfold DataProcessor.parseAddress
    rw [if_neg (by rw [hlen76]; omega), h59, if_neg (by decide), if_pos rfl,
        if_neg (by rw [hlen76]; omega),
        show (59 + 1 : Nat) = 60 from rfl, h60,
        if_neg (by rw [hlen76]; decide),
        show (59 + 2 : Nat) = 61 from rfl,
        show (61 + 11 : Nat) = 72 from rfl]
  unfold DataProcessor.parseDataPacket
  rw [if_neg (by rw [hlen76]; omega)]
  have hfmt : DataProcessor.detectDataFormat (digest ++ R) = some .streaming := by
    unfold DataProcessor.detectDataFormat
    rw [if_neg (by rw [hlen76]; omega),
        if_neg (by rintro ⟨h0, -⟩; exact hd0 h0),
        if_pos ⟨by rw [hlen76]; omega, by
          rw [htake, List.all_eq_true]
          intro b hb
          rw [hmod b hb]
          rcases hhex b hb with ⟨h1, h2⟩ | ⟨h1, h2⟩ <;>
            simp [DataProcessor.isHexCharCode] <;> omega⟩]
  rw [hfmt]
  unfold DataProcessor.processStreamingData
  rw [if_neg (by rw [hlen76]; omega), htake, hmap,
      if_neg (by simp),
      if_neg (by
        push_neg
        exact ⟨by rw [hlen76]; omega, by rw [h56], by rw [h57]⟩),
      if_neg (by rw [hlen76]; omega), hPA]
  dsimp only
  rw [if_pos (Or.inr (Or.inl (by rw [h72]; decide)))]

/-- C2 witnessed at the all-`'a'` digest and command 1. -/
theorem streaming_frame_with_port_rejected_witness :
    (List.replicate 56 97).length = 56 ∧
    (∀ b ∈ List.replicate 56 97, (48 ≤ b ∧ b ≤ 57) ∨ (97 ≤ b ∧ b ≤ 102)) ∧
    DataProcessor.parseDataPacket ⟨List.replicate 16 7, List.replicate 56 97, 8192⟩
        (List.replicate 56 97 ++ ([13, 10, 1, 3, 11] ++
          DataProcessor.strBytes "example.com" ++ [31, 144, 13, 10])) =
      .error "Invalid streaming data second separator" :=
  ⟨rfl, by decide,
    streaming_frame_with_port_rejected (List.replicate 16 7) (List.replicate 56 97)
      8192 1 rfl (by decide)⟩

/-! ## C5 — chunked delivery -/

/-- Slicing below the boundary ignores an extension of the buffer. -/
theorem listSlice_append (l t : List Nat) (a b : Nat) (h : b ≤ l.length) :
    DataProcessor.listSlice (l ++ t) a b = DataProcessor.listSlice l a b := by
  rw [DataProcessor.listSlice, DataProcessor.listSlice,
      List.take_append_of_le_length h]

/-- A successful `parseAddress` is stable under extending the buffer, moves
the offset strictly forward, and stays within the buffer. -/
theorem parseAddress_extend (data t : List Nat) (off : Nat)
    (ai : DataProcessor.AddrInfo)
    (h : DataProcessor.parseAddress data off = .ok ai) :
    DataProcessor.parseAddress (data ++ t) off = .ok ai ∧
    off < ai.offset ∧ ai.offset ≤ data.length := by
  have hlen' : (data ++ t).length = data.length + t.length := List.length_append data t
  unfold DataProcessor.parseAddress at h ⊢
  split at h
  · exact absurd h (by simp)
  next hoff =>
    have hofflt : off < data.length := by omega
    have hgoff : (data ++ t).getD off 0 = data.getD off 0 :=
      List.getD_append data t 0 off hofflt
    rw [if_neg (by rw [hlen']; omega), hgoff]
    split at h
    · -- IPv4
      next hv =>
      rw [hv, if_pos rfl]
      split at h
      · exact absurd h (by simp)
      next hg =>
        cases h
        rw [if_neg (by rw [hlen']; omega), listSlice_append data t _ _ (by omega)]
        exact ⟨rfl, by dsimp only; omega, by dsimp only; omega⟩
    next hv1 =>
      split at h
      · -- Domain
        next hv =>
        rw [hv, if_neg (by omega), if_pos rfl]
        split at h
        · exact absurd h (by simp)
        next hg1 =>
          have hg1lt : off + 1 < data.length := by omega
          have hgoff1 : (data ++ t).getD (off + 1) 0 = data.getD (off + 1) 0 :=
            List.getD_append data t 0 (off + 1) hg1lt
          split at h
          · exact absurd h (by simp)
          next hg2 =>
            cases h
            rw [if_neg (by rw [hlen']; omega), hgoff1,
                if_neg (by rw [hlen']; omega),
                listSlice_append data t _ _ (by omega)]
            exact ⟨rfl, by dsimp only; omega, by dsimp only; omega⟩
      next hv3 =>
        split at h
        · -- IPv6
          next hv =>
          rw [hv, if_neg (by omega), if_neg (by omega), if_pos rfl]
          split at h
          · exact absurd h (by simp)
          next hg =>
            cases h
            rw [if_neg (by rw [hlen']; omega)]
            refine ⟨?_, by dsimp only; omega, by dsimp only; omega⟩
            have hmap : (List.range 8).map
                (fun i => DataProcessor.readUInt16BE (data ++ t) (off + 1 + 2 * i)) =
                (List.range 8).map
                (fun i => DataProcessor.readUInt16BE data (off + 1 + 2 * i)) := by
              refine List.map_congr_left ?_
              intro i hi
              have hi8 : i < 8 := List.mem_range.mp hi
              rw [DataProcessor.readUInt16BE, DataProcessor.readUInt16BE,
                  List.getD_append data t 0 _ (by omega),
                  List.getD_append data t 0 _ (by omega)]
            rw [hmap]
        · exact absurd h (by simp)

/-- With genuine byte values, an address field spans at most 258 bytes
(type byte, length byte, up to 255 domain bytes). -/
theorem parseAddress_bound (data : List Nat) (off : Nat)
    (ai : DataProcessor.AddrInfo)
    (h : DataProcessor.parseAddress data off = .ok ai)
    (hb : ∀ b ∈ data, b < 256) :
    ai.offset ≤ off + 258 := by
  unfold DataProcessor.parseAddress at h
  split at h
  · exact absurd h (by simp)
  next hoff =>
    split at h
    · split at h
      · exact absurd h (by simp)
      · cases h; dsimp only; omega
    · split at h
      · split at h
        · exact absurd h (by simp)
        next hg1 =>
          split at h
          · exact absurd h (by simp)
          next hg2 =>
            cases h
            have hdl : data.getD (off + 1) 0 < 256 := by
              have hmem : data.getD (off + 1) 0 ∈ data := by
                rw [List.getD_eq_getElem data 0 (by omega)]
                exact List.getElem_mem (by omega)
              exact hb _ hmem
            dsimp only
            omega
      · split at h
        · split at h
          · exact absurd h (by simp)
          · cases h; dsimp only; omega
        · exact absurd h (by simp)

/-- A successful primary parse is stable under buffer extension: the match
is unchanged except that the extension lands in the leftover payload; the
payload is exactly the bytes past the header, which lies inside the
buffer. -/
theorem processPrimaryData_extend (cfg : Config) (data t : List Nat)
    (r : DataProcessor.MatchResult)
    (h : DataProcessor.processPrimaryData cfg data = .ok r) :
    DataProcessor.processPrimaryData cfg (data ++ t) =
      .ok { r with payload := r.payload ++ t } ∧
    r.payload = data.drop r.headerLength ∧ r.headerLength ≤ data.length := by
  have hlen' : (data ++ t).length = data.length + t.length := List.length_append data t
  unfold DataProcessor.processPrimaryData at h ⊢
  split at h
  · exact absurd h (by simp)
  next h1 =>
    split at h
    · exact absurd h (by simp)
    next h2 =>
      split at h
      · exact absurd h (by simp)
      next h3 =>
        split at h
        · exact absurd h (by simp)
        next h4 =>
          split at h
          · exact absurd h (by simp)
          next h5 =>
            split at h
            · exact absurd h (by simp)
            next h6 =>
              split at h
              · exact absurd h (by simp)
              next ai heq =>
                obtain ⟨hpa', hlt, hle⟩ := parseAddress_extend data t _ ai heq
                cases h
                have hg0 : (data ++ t).getD 0 0 = data.getD 0 0 :=
                  List.getD_append data t 0 0 (by omega)
                have hmd : (data ++ t).getD 17 0 = data.getD 17 0 :=
                  List.getD_append data t 0 17 (by omega)
                have hcm : (data ++ t).getD (18 + data.getD 17 0) 0 =
                    data.getD (18 + data.getD 17 0) 0 :=
                  List.getD_append data t 0 _ (by omega)
                have hq1 : (data ++ t).getD (18 + data.getD 17 0 + 1) 0 =
                    data.getD (18 + data.getD 17 0 + 1) 0 :=
                  List.getD_append data t 0 _ (by omega)
                have hq2 : (data ++ t).getD (18 + data.getD 17 0 + 1 + 1) 0 =
                    data.getD (18 + data.getD 17 0 + 1 + 1) 0 :=
                  List.getD_append data t 0 _ (by omega)
                have hdrop : (data ++ t).drop ai.offset = data.drop ai.offset ++ t :=
                  List.drop_append_of_le_length hle
                have hrd : DataProcessor.readUInt16BE (data ++ t)
                    (18 + data.getD 17 0 + 1) =
                    DataProcessor.readUInt16BE data (18 + data.getD 17 0 + 1) := by
                  rw [DataProcessor.readUInt16BE, DataProcessor.readUInt16BE, hq1, hq2]
                refine ⟨?_, rfl, hle⟩
                rw [if_neg (by omega), hg0, if_neg h2,
                    listSlice_append data t 1 17 (by omega), if_neg h3,
                    if_neg (by omega), hmd, if_neg (by omega), if_neg (by omega),
                    hpa', hcm, hrd]
                dsimp only
                rw [hdrop]

/-- With genuine byte values, a primary header spans at most 534 bytes. -/
theorem processPrimaryData_bound (cfg : Config) (data : List Nat)
    (r : DataProcessor.MatchResult)
    (h : DataProcessor.processPrimaryData cfg data = .ok r)
    (hb : ∀ b ∈ data, b < 256) :
    r.headerLength ≤ 534 := by
  unfold DataProcessor.processPrimaryData at h
  split at h
  · exact absurd h (by simp)
  next h1 =>
    split at h
    · exact absurd h (by simp)
    split at h
    · exact absurd h (by simp)
    split at h
    · exact absurd h (by simp)
    next h4 =>
      split at h
      · exact absurd h (by simp)
      split at h
      · exact absurd h (by simp)
      split at h
      · exact absurd h (by simp)
      next ai heq =>
        cases h
        have hmd : data.getD 17 0 < 256 := by
          have hmem : data.getD 17 0 ∈ data := by
            rw [List.getD_eq_getElem data 0 (by omega)]
            exact List.getElem_mem (by omega)
          exact hb _ hmem
        have := parseAddress_bound data _ ai heq hb
        dsimp only
        omega

/-- A successful streaming parse is likewise stable under extension. -/
theorem processStreamingData_extend (cfg : Config) (data t : List Nat)
    (r : DataProcessor.MatchResult)
    (h : DataProcessor.processStreamingData cfg data = .ok r) :
    DataProcessor.processStreamingData cfg (data ++ t) =
      .ok { r with payload := r.payload ++ t } ∧
    r.payload = data.drop r.headerLength ∧ r.headerLength ≤ data.length := by
  have hlen' : (data ++ t).length = data.length + t.length := List.length_append data t
  unfold DataProcessor.processStreamingData at h ⊢
  split at h
  · exact absurd h (by simp)
  next h1 =>
    split at h
    · exact absurd h (by simp)
    next h2 =>
      split at h
      · exact absurd h (by simp)
      next h3 =>
        split at h
        · exact absurd h (by simp)
        next h4 =>
          split at h
          · exact absurd h (by simp)
          next ai heq =>
            obtain ⟨hpa', hlt, hle⟩ := parseAddress_extend data t 59 ai heq
            push_neg at h3
            obtain ⟨h3a, h3b, h3c⟩ := h3
            split at h
            · exact absurd h (by simp)
            next h5 =>
              push_neg at h5
              obtain ⟨h5a, h5b, h5c⟩ := h5
              cases h
              have htk : (data ++ t).take 56 = data.take 56 :=
                List.take_append_of_le_length (by omega)
              have hg56 : (data ++ t).getD 56 0 = data.getD 56 0 :=
                List.getD_append data t 0 56 (by omega)
              have hg57 : (data ++ t).getD 57 0 = data.getD 57 0 :=
                List.getD_append data t 0 57 (by omega)
              have hg58 : (data ++ t).getD 58 0 = data.getD 58 0 :=
                List.getD_append data t 0 58 (by omega)
              have hgo : (data ++ t).getD ai.offset 0 = data.getD ai.offset 0 :=
                List.getD_append data t 0 _ (by omega)
              have hgo1 : (data ++ t).getD (ai.offset + 1) 0 =
                  data.getD (ai.offset + 1) 0 :=
                List.getD_append data t 0 _ (by omega)
              have hdrop : (data ++ t).drop (ai.offset + 2) =
                  data.drop (ai.offset + 2) ++ t :=
                List.drop_append_of_le_length (by omega)
              refine ⟨?_, rfl, by dsimp only; omega⟩
              rw [if_neg (by omega), htk, if_neg h2,
                  if_neg (by push_neg; exact ⟨by omega, by rw [hg56]; exact h3b,
                    by rw [hg57]; exact h3c⟩),
                  if_neg (by omega), hpa']
              dsimp only
              rw [if_neg (by push_neg; exact ⟨by omega, by rw [hgo]; exact h5b,
                    by rw [hgo1]; exact h5c⟩),
                  hg58, hdrop]

/-- With genuine byte values, a streaming header spans at most 319 bytes. -/
theorem processStreamingData_bound (cfg : Config) (data : List Nat)
    (r : DataProcessor.MatchResult)
    (h : DataProcessor.processStreamingData cfg data = .ok r)
    (hb : ∀ b ∈ data, b < 256) :
    r.headerLength ≤ 319 := by
  unfold DataProcessor.processStreamingData at h
  split at h
  · exact absurd h (by simp)
  split at h
  · exact absurd h (by simp)
  split at h
  · exact absurd h (by simp)
  split at h
  · exact absurd h (by simp)
  split at h
  · exact absurd h (by simp)
  next ai heq =>
    split at h
    · exact absurd h (by simp)
    · cases h
      have := parseAddress_bound data 59 ai heq hb
      dsimp only
      omega

/-- Extending a buffer routed to `'primary'` keeps it routed to
`'primary'`. -/
theorem detectDataFormat_primary_extend (data t : List Nat)
    (h : DataProcessor.detectDataFormat data = some .primary) :
    DataProcessor.detectDataFormat (data ++ t) = some .primary := by
  have hlen' : (data ++ t).length = data.length + t.length := List.length_append data t
  unfold DataProcessor.detectDataFormat at h ⊢
  split at h
  · exact absurd h (by simp)
  next h1 =>
    split at h
    next hc =>
      obtain ⟨hc0, hc17⟩ := hc
      rw [if_neg (by omega),
          if_pos ⟨by rw [List.getD_append data t 0 0 (by omega)]; exact hc0, by omega⟩]
    · split at h
      · exact absurd h (by simp)
      · exact absurd h (by simp)

/-- Extending a buffer routed to `'streaming'` keeps it routed to
`'streaming'`. -/
theorem detectDataFormat_streaming_extend (data t : List Nat)
    (h : DataProcessor.detectDataFormat data = some .streaming) :
    DataProcessor.detectDataFormat (data ++ t) = some .streaming := by
  have hlen' : (data ++ t).length = data.length + t.length := List.length_append data t
  unfold DataProcessor.detectDataFormat at h ⊢
  split at h
  · exact absurd h (by simp)
  next h1 =>
    split at h
    · exact absurd h (by simp)
    next h2 =>
      split at h
      next hc =>
        obtain ⟨hc56, hall⟩ := hc
        have hg0 : (data ++ t).getD 0 0 = data.getD 0 0 :=
          List.getD_append data t 0 0 (by omega)
        rw [if_neg (by omega),
            if_neg (by rintro ⟨ha, -⟩; rw [hg0] at ha; exact h2 ⟨ha, by omega⟩),
            if_pos ⟨by omega, by
              rw [List.take_append_of_le_length (by omega)]; exact hall⟩]
      · exact absurd h (by simp)

/-- A successful `parseDataPacket` is stable under extension: the extra
bytes land verbatim at the end of the leftover payload, and the payload is
exactly the suffix of the buffer past `headerLength`. -/
theorem parseDataPacket_extend (cfg : Config) (data t : List Nat)
    (r : DataProcessor.MatchResult)
    (h : DataProcessor.parseDataPacket cfg data = .ok r) :
    DataProcessor.parseDataPacket cfg (data ++ t) =
      .ok { r with payload := r.payload ++ t } ∧
    r.payload = data.drop r.headerLength ∧ r.headerLength ≤ data.length := by
  have hlen' : (data ++ t).length = data.length + t.length := List.length_append data t
  unfold DataProcessor.parseDataPacket at h ⊢
  split at h
  · exact absurd h (by simp)
  next h0 =>
    rw [if_neg (by omega)]
    cases hF : DataProcessor.detectDataFormat data with
    | none => rw [hF] at h; exact absurd h (by simp)
    | some f =>
      rw [hF] at h
      cases f with
      | primary =>
        rw [detectDataFormat_primary_extend data t hF]
        exact processPrimaryData_extend cfg data t r h
      | streaming =>
        rw [detectDataFormat_streaming_extend data t hF]
        exact processStreamingData_extend cfg data t r h

/-- With genuine byte values, either header fits in 534 bytes. -/
theorem parseDataPacket_bound (cfg : Config) (data : List Nat)
    (r : DataProcessor.MatchResult)
    (h : DataProcessor.parseDataPacket cfg data = .ok r)
    (hb : ∀ b ∈ data, b < 256) :
    r.headerLength ≤ 534 := by
  unfold DataProcessor.parseDataPacket at h
  split at h
  · exact absurd h (by simp)
  cases hF : DataProcessor.detectDataFormat data with
  | none => rw [hF] at h; exact absurd h (by simp)
  | some f =>
    rw [hF] at h
    cases f with
    | primary => exact processPrimaryData_bound cfg data r h hb
    | streaming => exact le_trans (processStreamingData_bound cfg data r h hb) (by omega)

/-- No strict front part of a whole-header frame (one that parses with an
empty leftover payload) is itself accepted by the detector. -/
theorem parse_front_fails (cfg : Config) (f : List Nat)
    (r : DataProcessor.MatchResult)
    (hok : DataProcessor.parseDataPacket cfg f = .ok r)
    (hpay : r.payload = []) (k : Nat) (hk : k < f.length) :
    ∀ s, DataProcessor.parseDataPacket cfg (f.take k) ≠ .ok s := by
  intro s hs
  obtain ⟨hext, -, -⟩ := parseDataPacket_extend cfg (f.take k) (f.drop k) s hs
  rw [List.take_append_drop k f, hok] at hext
  have hr : r = { s with payload := s.payload ++ f.drop k } := by
    simpa using hext
  have hdrop : f.drop k = [] := by
    have hp := hpay
    rw [hr] at hp
    dsimp only at hp
    exact (List.append_eq_nil.mp hp).2
  have : f.length ≤ k := by
    have := congrArg List.length hdrop
    rw [List.length_drop] at this
    simpa using Nat.le_of_sub_eq_zero (by simpa using this)
  omega

/-- In stage `'detected'`, a whole trace of non-control client messages is
absorbed without any state change or effect. -/
theorem runEvents_detected_noop (cfg : Config) (now : Int)
    (conn : StreamHandler.Conn) (msgs : List StreamHandler.InMsg)
    (hstage : conn.stage = .detected)
    (hviews : ∀ m ∈ msgs, StreamHandler.isControlView m.view = false) :
    StreamHandler.runEvents cfg now conn (msgs.map .clientMsg) = (conn, []) := by
  induction msgs with
  | nil => simp [StreamHandler.runEvents]
  | cons m rest ih =>
    have h1 := handle_detected_noop cfg conn m now hstage
      (hviews m (List.mem_cons_self m rest))
    have h2 := ih (fun x hx => hviews x (List.mem_cons_of_mem m hx))
    simp [StreamHandler.runEvents, StreamHandler.stepEvent, h1, h2]

/-- In AWAIT, a non-control message goes down the binary path into
`detectDataFormat`. -/
theorem handle_dashboard_detect (cfg : Config) (conn : StreamHandler.Conn)
    (m : StreamHandler.InMsg) (now : Int)
    (hstage : conn.stage = .dashboard)
    (hview : StreamHandler.isControlView m.view = false) :
    StreamHandler.handleConnectionMessage cfg conn m now =
      StreamHandler.detectDataFormat cfg conn m.raw := by
  cases hv : m.view with
  | ping ts => rw [hv] at hview; simp [StreamHandler.isControlView] at hview
  | subscribe ch => rw [hv] at hview; simp [StreamHandler.isControlView] at hview
  | other => simp [StreamHandler.handleConnectionMessage, hv, hstage]
  | notJson => simp [StreamHandler.handleConnectionMessage, hv, hstage]

/-- Delivering any chunking of a whole-header frame through the
accumulate-then-re-detect loop ends with `formatInfo` holding the frame's
match. -/
theorem deliver_chunks_formatInfo (cfg : Config) (now : Int) (f : List Nat)
    (r : DataProcessor.MatchResult)
    (hcap : cfg.bufferSize = 8192)
    (hb : ∀ x ∈ f, x < 256)
    (hok : DataProcessor.parseDataPacket cfg f = .ok r)
    (hpay : r.payload = []) :
    ∀ (msgs : List StreamHandler.InMsg) (conn : StreamHandler.Conn),
      conn.stage = .dashboard →
      (∀ m ∈ msgs, StreamHandler.isControlView m.view = false) →
      conn.buffer ++ (msgs.map StreamHandler.InMsg.raw).flatten = f →
      conn.buffer.length < f.length →
      (StreamHandler.runEvents cfg now conn (msgs.map .clientMsg)).1.formatInfo
        = some r := by
  intro msgs
  induction msgs with
  | nil =>
    intro conn hstage hviews hcat hlt
    exfalso
    simp only [List.map_nil, List.flatten_nil, List.append_nil] at hcat
    rw [hcat] at hlt
    omega
  | cons m rest ih =>
    intro conn hstage hviews hcat hlt
    have hview := hviews m (List.mem_cons_self m rest)
    have hviews' : ∀ x ∈ rest, StreamHandler.isControlView x.view = false :=
      fun x hx => hviews x (List.mem_cons_of_mem m hx)
    have hcat' : (conn.buffer ++ m.raw) ++ (rest.map StreamHandler.InMsg.raw).flatten
        = f := by
      rw [List.append_assoc]
      simpa using hcat
    have hstep := handle_dashboard_detect cfg conn m now hstage hview
    by_cases hc : (conn.buffer ++ m.raw).length = f.length
    · have hlc := congrArg List.length hcat'
      rw [List.length_append] at hlc
      have hfl : (rest.map StreamHandler.InMsg.raw).flatten = [] :=
        List.length_eq_zero.mp (by omega)
      have hbuf : conn.buffer ++ m.raw = f := by
        rw [← hcat', hfl, List.append_nil]
      have hdet : StreamHandler.detectDataFormat cfg conn m.raw =
          ({ conn with
              buffer := conn.buffer ++ m.raw
              hasInterval := false
              stage := .detected
              isDataStream := true
              formatInfo := some r },
           (if conn.hasInterval then [StreamHandler.Effect.clearTimer] else []) ++
             [StreamHandler.Effect.connectTarget r.address r.port]) := by
        unfold StreamHandler.detectDataFormat
        rw [hbuf, hok]
      have hnoop := runEvents_detected_noop cfg now
        { conn with
            buffer := conn.buffer ++ m.raw
            hasInterval := false
            stage := .detected
            isDataStream := true
            formatInfo := some r }
        rest rfl hviews'
      simp [StreamHandler.runEvents, StreamHandler.stepEvent, hstep, hdet, hnoop]
    · have hlc := congrArg List.length hcat'
      rw [List.length_append] at hlc
      have hltb : (conn.buffer ++ m.raw).length < f.length := by omega
      have hpre : conn.buffer ++ m.raw = f.take (conn.buffer ++ m.raw).length := by
        rw [← hcat', List.take_left]
      cases hpb : DataProcessor.parseDataPacket cfg (conn.buffer ++ m.raw) with
      | ok s =>
        exfalso
        have hfail := parse_front_fails cfg f r hok hpay
          (conn.buffer ++ m.raw).length hltb s
        rw [← hpre] at hfail
        exact hfail hpb
      | error e =>
        have hfb : f.length ≤ 534 := by
          obtain ⟨-, hp, hhl⟩ := parseDataPacket_extend cfg f [] r hok
          have hbound := parseDataPacket_bound cfg f r hok hb
          have hdn : f.drop r.headerLength = [] := by rw [← hp, hpay]
          have hld := congrArg List.length hdn
          rw [List.length_drop] at hld
          simp only [List.length_nil] at hld
          omega
        have hdet : StreamHandler.detectDataFormat cfg conn m.raw =
            ({ conn with buffer := conn.buffer ++ m.raw }, []) := by
          unfold StreamHandler.detectDataFormat
          rw [hpb]
          dsimp only
          rw [if_neg (by rw [hcap]; omega)]
        have hrec := ih { conn with buffer := conn.buffer ++ m.raw } hstage hviews'
          hcat' hltb
        simp [StreamHandler.runEvents, StreamHandler.stepEvent, hstep, hdet]
        exact hrec

/-- C5 counterexample: take the valid Format P frame `primaryFrameEx` with
one byte of trailing payload, and split it into the header and the payload
byte.  Chunked delivery matches already on the first chunk, with an *empty*
leftover payload (the payload byte is then silently dropped in stage
`'detected'`), while whole delivery matches with leftover payload `[171]` —
the two `Matched` results differ, refuting the claim as stated. -/
theorem chunked_delivery_counterexample :
    (StreamHandler.runEvents cfgEx 0 StreamHandler.freshConn
        [.clientMsg ⟨primaryFrameEx, .notJson⟩,
         .clientMsg ⟨[171], .notJson⟩]).1.formatInfo ≠
    (StreamHandler.runEvents cfgEx 0 StreamHandler.freshConn
        [.clientMsg ⟨primaryFrameEx ++ [171], .notJson⟩]).1.formatInfo := by
  decide

/-- C5 amended: for every frame of either format that parses with an
**empty** leftover payload, and every way of splitting it into two or more
chunks none of which itself parses as a JSON ping/subscribe control message,
delivering the chunks one at a time through the accumulate-then-re-detect
loop of a fresh AWAIT connection records exactly the same match as
delivering the frame whole. -/
theorem chunked_delivery_amended (cfg : Config) (now : Int) (f : List Nat)
    (r : DataProcessor.MatchResult) (msgs : List StreamHandler.InMsg)
    (hcap : cfg.bufferSize = 8192)
    (hb : ∀ x ∈ f, x < 256)
    (hok : DataProcessor.parseDataPacket cfg f = .ok r)
    (hpay : r.payload = [])
    (hviews : ∀ m ∈ msgs, StreamHandler.isControlView m.view = false)
    (hsplit : (msgs.map StreamHandler.InMsg.raw).flatten = f)
    (hn : 2 ≤ msgs.length) :
    (StreamHandler.runEvents cfg now StreamHandler.freshConn
        (msgs.map .clientMsg)).1.formatInfo = some r ∧
    (StreamHandler.runEvents cfg now StreamHandler.freshConn
        [.clientMsg ⟨f, .notJson⟩]).1.formatInfo = some r := by
  have hf0 : 0 < f.length := by
    rcases Nat.eq_zero_or_pos f.length with h0 | h0
    · exfalso
      unfold DataProcessor.parseDataPacket at hok
      rw [if_pos h0] at hok
      exact absurd hok (by simp)
    · exact h0
  constructor
  · exact deliver_chunks_formatInfo cfg now f r hcap hb hok hpay msgs
      StreamHandler.freshConn rfl hviews (by simpa [StreamHandler.freshConn] using hsplit)
      (by simpa [StreamHandler.freshConn] using hf0)
  · have hdet : StreamHandler.detectDataFormat cfg StreamHandler.freshConn f =
        ({ StreamHandler.freshConn with
            buffer := f
            hasInterval := false
            stage := .detected
            isDataStream := true
            formatInfo := some r },
         [StreamHandler.Effect.clearTimer, StreamHandler.Effect.connectTarget
            r.address r.port]) := by
      unfold StreamHandler.detectDataFormat
      rw [show StreamHandler.freshConn.buffer ++ f = f from List.nil_append f, hok]
      rfl
    have hstep := handle_dashboard_detect cfg StreamHandler.freshConn
      ⟨f, .notJson⟩ now rfl rfl
    simp [StreamHandler.runEvents, StreamHandler.stepEvent, hstep, hdet]

/-- C5 amended, witnessed: the payload-free frame `primaryFrameEx` split
after its tenth byte is recognized with the same match as when sent
whole. -/
theorem chunked_delivery_amended_witness :
    (∀ m ∈ ([⟨primaryFrameEx.take 10, .notJson⟩,
             ⟨primaryFrameEx.drop 10, .notJson⟩] : List StreamHandler.InMsg),
        StreamHandler.isControlView m.view = false) ∧
    (([⟨primaryFrameEx.take 10, .notJson⟩,
       ⟨primaryFrameEx.drop 10, .notJson⟩] : List StreamHandler.InMsg).map
        StreamHandler.InMsg.raw).flatten = primaryFrameEx ∧
    DataProcessor.parseDataPacket cfgEx primaryFrameEx = .ok primaryResultEx ∧
    ((StreamHandler.runEvents cfgEx 0 StreamHandler.freshConn
        (([⟨primaryFrameEx.take 10, .notJson⟩,
           ⟨primaryFrameEx.drop 10, .notJson⟩] : List StreamHandler.InMsg).map
          .clientMsg)).1.formatInfo = some primaryResultEx ∧
     (StreamHandler.runEvents cfgEx 0 StreamHandler.freshConn
        [.clientMsg ⟨primaryFrameEx, .notJson⟩]).1.formatInfo
          = some primaryResultEx) :=
  ⟨by decide, by decide, rfl,
    chunked_delivery_amended cfgEx 0 primaryFrameEx primaryResultEx
      [⟨primaryFrameEx.take 10, .notJson⟩, ⟨primaryFrameEx.drop 10, .notJson⟩]
      rfl (by decide) rfl rfl (by decide) (by decide) (by decide)⟩
